import Mathlib

/-!
Verification of the request-routing and file-delivery engine of the
`remote_enhanced_file_server` repository (two Python sources,
`enhanced_http_server_complete.py` and `enhanced_http_server_new.py`).

The development shallowly embeds the path manipulation helpers of CPython's
`posixpath` module that the sources call (`join`, `normpath`, `dirname`,
`basename`, `str.replace`, `str.split`), an abstract filesystem tree standing
for the host filesystem, and the request handlers of the sources
(`handle_dedicated_download`, `find_file_by_name`,
`generate_enhanced_directory_listing`, `send_video_info`,
`format_file_size`, the categorised `list_directory` of the second source,
and the raw-file branch of `do_GET` which delegates to CPython's
`http.server.SimpleHTTPRequestHandler`).

All definitions use structural recursion so that concrete instances evaluate
by kernel reduction (`rfl` / `decide`).  Strings are manipulated through
their underlying character lists; lowercasing is modelled for ASCII, which
covers every name appearing in the sources and in the concrete instances.
-/

namespace FileServer

/-! ## String helpers (character-list based; mirror CPython semantics) -/

/-- Case conversion of one ASCII character, as `str.lower` does for ASCII. -/
def lowerChar (c : Char) : Char :=
  if 'A' ≤ c ∧ c ≤ 'Z' then Char.ofNat (c.toNat + 32) else c

/-- ASCII model of Python `str.lower`. -/
def strLower (s : String) : String := ⟨s.data.map lowerChar⟩

/-- Python `s.startswith(pre)`. -/
def strStartsWith (s pre : String) : Bool := pre.data.isPrefixOf s.data

/-- Python `s.endswith(suf)`. -/
def strEndsWith (s suf : String) : Bool := suf.data.isSuffixOf s.data

/-- Lexicographic comparison of character lists by code point,
Python's `<=` on strings. -/
def lexLe : List Char → List Char → Bool
  | [], _ => true
  | _ :: _, [] => false
  | a :: as, b :: bs =>
    if a.toNat < b.toNat then true
    else if b.toNat < a.toNat then false
    else lexLe as bs

/-- Auxiliary splitter: accumulates the current (reversed) field. -/
def splitSlashAux : List Char → List Char → List String
  | cur, [] => [⟨cur.reverse⟩]
  | cur, c :: cs =>
    if c = '/' then ⟨cur.reverse⟩ :: splitSlashAux [] cs
    else splitSlashAux (c :: cur) cs

/-- Python `s.split('/')` (keeps empty fields, as CPython does). -/
def splitSlash (s : String) : List String := splitSlashAux [] s.data

/-- Join a list of components with `'/'`, Python `'/'.join(comps)`. -/
def joinSep : List String → String
  | [] => ""
  | [c] => c
  | c :: rest => c ++ "/" ++ joinSep rest

/-- Python `s.strip('/')`: drop leading and trailing slashes. -/
def stripSlashes (s : String) : String :=
  ⟨((s.data.dropWhile (· = '/')).reverse.dropWhile (· = '/')).reverse⟩

/-- Remove every occurrence of the (nonempty) pattern `pat`,
Python `s.replace(pat, '')`.  The `fuel` argument keeps the recursion
structural; it is instantiated with the length of the input, which is enough
because each step consumes at least one character. -/
def removeAllAux (pat : List Char) : Nat → List Char → List Char
  | _, [] => []
  | 0, s => s
  | fuel + 1, c :: cs =>
    if pat ≠ [] ∧ pat.isPrefixOf (c :: cs) then
      removeAllAux pat fuel ((c :: cs).drop pat.length)
    else
      c :: removeAllAux pat fuel cs

/-- Python `s.replace(pat, '')` for nonempty `pat`. -/
def pyReplaceEmpty (s pat : String) : String :=
  ⟨removeAllAux pat.data s.data.length s.data⟩

/-- Python `s.count('/')`: number of slash characters. -/
def countSlash (s : String) : Nat := s.data.countP (· = '/')

/-! ## posixpath helpers used by the sources -/

/-- CPython `posixpath.join(a, b)` (two-argument form): `b` wins if absolute,
otherwise it is appended with a separator unless `a` is empty or already ends
with one. -/
def pyJoin (a b : String) : String :=
  if strStartsWith b "/" then b
  else if a = "" ∨ strEndsWith a "/" then a ++ b
  else a ++ "/" ++ b

/-- Component-processing loop of CPython `posixpath.normpath`: skips empty
and `.` components, resolves `..` against the accumulator (kept reversed). -/
def normComps (isAbs : Bool) : List String → List String → List String
  | acc, [] => acc.reverse
  | acc, comp :: rest =>
    if comp = "" ∨ comp = "." then normComps isAbs acc rest
    else if comp ≠ ".." ∨ (¬ isAbs ∧ acc = []) ∨ acc.head? = some ".." then
      normComps isAbs (comp :: acc) rest
    else if acc ≠ [] then normComps isAbs acc.tail rest
    else normComps isAbs acc rest

/-- CPython `posixpath.normpath`: collapse `.`, `..` and repeated slashes;
an empty path becomes `.`; the POSIX double-slash special case is kept. -/
def normpath (p : String) : String :=
  if p = "" then "." else
  let initialSlashes : Nat :=
    if strStartsWith p "/" then
      (if strStartsWith p "//" ∧ ¬ strStartsWith p "///" then 2 else 1)
    else 0
  let comps := normComps (initialSlashes ≠ 0) [] (splitSlash p)
  let path : String := ⟨List.replicate initialSlashes '/'⟩ ++ joinSep comps
  if path = "" then "." else path

/-- CPython `posixpath.dirname`: everything up to the last slash, with
trailing slashes stripped unless the head is all slashes. -/
def dirname (p : String) : String :=
  let head := (p.data.reverse.dropWhile (· ≠ '/')).reverse
  if head ≠ [] ∧ head.any (· ≠ '/') then
    ⟨(head.reverse.dropWhile (· = '/')).reverse⟩
  else ⟨head⟩

/-- CPython `posixpath.basename`: everything after the last slash. -/
def basename (p : String) : String :=
  ⟨(p.data.reverse.takeWhile (· ≠ '/')).reverse⟩

/-- CPython `os.path.abspath` relative to an explicit working directory
(the model threads the process working directory explicitly):
`normpath(join(cwd, p))`. -/
def pyAbspath (cwd p : String) : String := normpath (pyJoin cwd p)

/-! ## Abstract filesystem

A snapshot of the host filesystem as a finite tree rooted at `/`.  Entry
lists carry the enumeration order that `os.listdir` / `os.walk` observe.
`Meta` holds the `os.stat` data the handlers read; `mtimeStr` is the
`strftime('%Y-%m-%d %H:%M:%S', localtime(st_mtime))` rendering carried as
data (the rendering itself is timezone-dependent presentation).  `readable`
and `writable` stand for `os.access(path, R_OK / W_OK)`.  Symlinks are not
modelled; on a symlink-free tree `os.path.realpath` and `normpath` agree. -/

structure Meta where
  mtime : Nat
  mtimeStr : String
  mode : Nat
  readable : Bool
  writable : Bool
deriving DecidableEq

mutual
inductive FSNode where
  | file (content : List Nat) (meta : Meta)
  | dir (entries : FSEntries) (meta : Meta)
inductive FSEntries where
  | nil
  | cons (name : String) (node : FSNode) (rest : FSEntries)
end

/-- Stat metadata of a node. -/
def FSNode.metaOf : FSNode → Meta
  | .file _ m => m
  | .dir _ m => m

/-- Whether a node is a directory (`os.path.isdir`). -/
def FSNode.isDir : FSNode → Bool
  | .file _ _ => false
  | .dir _ _ => true

/-- Size the handlers use: `st_size` for regular files; directories are
listed with size 0 by the sources (`0 if is_dir else stat.st_size`). -/
def FSNode.sizeB : FSNode → Nat
  | .file c _ => c.length
  | .dir _ _ => 0

/-- Look up an immediate child by name. -/
def FSEntries.lookupName : FSEntries → String → Option FSNode
  | .nil, _ => none
  | .cons n node rest, name =>
    if n = name then some node else rest.lookupName name

/-- Children of a directory node, in enumeration order (`os.listdir`). -/
def FSEntries.toList : FSEntries → List (String × FSNode)
  | .nil => []
  | .cons n node rest => (n, node) :: rest.toList

/-- Names of the regular files among the entries (`filenames` of `os.walk`). -/
def FSEntries.fileNames : FSEntries → List String
  | .nil => []
  | .cons n (.file _ _) rest => n :: rest.fileNames
  | .cons _ (.dir _ _) rest => rest.fileNames

/-- Follow a component path down the tree. -/
def FSNode.lookupComps : FSNode → List String → Option FSNode
  | t, [] => some t
  | .file _ _, _ :: _ => none
  | .dir es _, c :: cs =>
    match es.lookupName c with
    | some t => t.lookupComps cs
    | none => none

/-- Resolve an absolute path string against the filesystem root: the OS
resolves `.` and `..` (and repeated slashes) exactly as `normpath` does on a
symlink-free tree, then follows components. -/
def lookupAbs (fs : FSNode) (p : String) : Option FSNode :=
  fs.lookupComps ((splitSlash (normpath p)).filter (fun c => c ≠ ""))

/-- Python `os.path.exists` for absolute paths. -/
def pyExists (fs : FSNode) (p : String) : Bool := (lookupAbs fs p).isSome

/-- Python `os.path.isfile` for absolute paths. -/
def pyIsFile (fs : FSNode) (p : String) : Bool :=
  match lookupAbs fs p with
  | some (.file _ _) => true
  | _ => false

/-- Python `os.path.isdir` for absolute paths. -/
def pyIsDir (fs : FSNode) (p : String) : Bool :=
  match lookupAbs fs p with
  | some (.dir _ _) => true
  | _ => false

/-- Children of the directory at an absolute path, `[]` if absent or a file. -/
def childrenAt (fs : FSNode) (p : String) : List (String × FSNode) :=
  match lookupAbs fs p with
  | some (.dir es _) => es.toList
  | _ => []

/-! ## find_file_by_name (enhanced_http_server_complete.py, lines 2015-2057)

`os.walk(top)` enumerates directories top-down in pre-order: it yields
`top` first, then recurses into each subdirectory in listing order.  The
search returns the first root whose `filenames` contain the target. -/

mutual
/-- First match of `filename` in the pre-order walk of the subtree rooted at
`root` (the `for root, dirs, files in os.walk(...)` loop of the subtree
phase).  Walking a regular-file path yields nothing, as `os.walk` does. -/
def walkFindNode (filename root : String) : FSNode → Option String
  | .file _ _ => none
  | .dir es _ =>
    if es.fileNames.contains filename then some (pyJoin root filename)
    else walkFindEntries filename root es

/-- Continue the walk through the child entries in enumeration order. -/
def walkFindEntries (filename root : String) : FSEntries → Option String
  | .nil => none
  | .cons n node rest =>
    match node with
    | .dir _ _ =>
      match walkFindNode filename (pyJoin root n) node with
      | some p => some p
      | none => walkFindEntries filename root rest
    | .file _ _ => walkFindEntries filename root rest
end

mutual
/-- Parent-tree phase of the search: same pre-order walk, but a root whose
depth relative to `parentDir` — computed as
`root.replace(parent_dir, '').count('/')` — reaches 4 is pruned: its files
are not examined and its subdirectories are not entered
(`dirs[:] = []; continue`). -/
def parentWalkNode (filename parentDir root : String) : FSNode → Option String
  | .file _ _ => none
  | .dir es _ =>
    if 4 ≤ countSlash (pyReplaceEmpty root parentDir) then none
    else if es.fileNames.contains filename then some (pyJoin root filename)
    else parentWalkEntries filename parentDir root es

/-- Continue the bounded parent-tree walk through the child entries. -/
def parentWalkEntries (filename parentDir root : String) : FSEntries → Option String
  | .nil => none
  | .cons n node rest =>
    match node with
    | .dir _ _ =>
      match parentWalkNode filename parentDir (pyJoin root n) node with
      | some p => some p
      | none => parentWalkEntries filename parentDir root rest
    | .file _ _ => parentWalkEntries filename parentDir root rest
end

/-- Phase 1 of `find_file_by_name`: the direct `os.path.exists` check of
`os.path.join(current_dir, filename)` (note: a directory of that name also
passes this check). -/
def find_direct (fs : FSNode) (cwd filename : String) : Option String :=
  let direct_path := pyJoin cwd filename
  if pyExists fs direct_path then some direct_path else none

/-- Phase 2 of `find_file_by_name`: `os.walk(current_dir)` looking for the
first root whose files contain `filename`. -/
def find_subtree (fs : FSNode) (cwd filename : String) : Option String :=
  match lookupAbs fs cwd with
  | some t => walkFindNode filename cwd t
  | none => none

/-- Phase 3 of `find_file_by_name`: walk the parent of `current_dir`
(skipped when the parent equals the directory itself or is `/`), pruning at
depth 4. -/
def find_parent (fs : FSNode) (cwd filename : String) : Option String :=
  let parent_dir := dirname cwd
  if parent_dir ≠ cwd ∧ parent_dir ≠ "/" then
    match lookupAbs fs parent_dir with
    | some t => parentWalkNode filename parent_dir parent_dir t
    | none => none
  else none

/-- `find_file_by_name` of `enhanced_http_server_complete.py`: the direct
check, then the subtree walk, then the bounded parent-tree walk; the first
phase to produce a path wins. -/
def find_file_by_name (fs : FSNode) (cwd filename : String) : Option String :=
  if pyExists fs (pyJoin cwd filename) then some (pyJoin cwd filename)
  else
    match find_subtree fs cwd filename with
    | some p => some p
    | none => find_parent fs cwd filename

/-! ## handle_dedicated_download (enhanced_http_server_complete.py, 533-623) -/

/-- Response of the dedicated download handler.  `Content-Type` is looked up
in the process-wide `mimetypes` registry (environment data) and is omitted;
`body` is the byte stream assuming the client stays connected (the
disconnect behaviour of the chunk loop is modelled separately by
`streamLoop`). -/
structure DlResponse where
  status : Nat
  contentDisposition : Option String
  contentLength : Option Nat
  acceptRanges : Option String
  body : List Nat
deriving DecidableEq

/-- Branch selection of `handle_dedicated_download`: a name that starts with
`/` is used as the full path directly (display name is its basename); any
other name goes through `find_file_by_name` (display name is the request
name); `none` is the 404 "not found anywhere" outcome. -/
def download_branch (fs : FSNode) (cwd filename : String) :
    Option (String × String) :=
  if strStartsWith filename "/" then some (filename, basename filename)
  else
    match find_file_by_name fs cwd filename with
    | none => none
    | some fp => some (fp, filename)

/-- `handle_dedicated_download` for the URL-decoded text after the
`/download/` prefix: resolve, `normpath`, then 404 if the path does not
exist, 400 if it is not a regular file, else 200 with
`Content-Disposition: attachment`, `Content-Length` equal to the file size,
`Accept-Ranges: bytes`, and the file bytes streamed. -/
def handle_dedicated_download (fs : FSNode) (cwd filename : String) :
    DlResponse :=
  match download_branch fs cwd filename with
  | none => ⟨404, none, none, none, []⟩
  | some (fp, display) =>
    let filepath := normpath fp
    match lookupAbs fs filepath with
    | none => ⟨404, none, none, none, []⟩
    | some (.dir _ _) => ⟨400, none, none, none, []⟩
    | some (.file content _) =>
      ⟨200,
       some ("attachment; filename=\"" ++ display ++ "\""),
       some content.length,
       some "bytes",
       content⟩

/-! ## The chunked stream loop of handle_dedicated_download (lines 593-616)

The loop reads 64 KiB chunks and, after each successful `write`+`flush`,
adds the chunk length to `bytes_sent`; a `BrokenPipeError` (or any other
write error) breaks out of the loop, the partial count is kept, and the
handler returns normally.  The sink is modelled by the number of chunk
writes that succeed before the peer disconnects.  `fuel` keeps the
recursion structural; `stream` instantiates it with the content length plus
one, which bounds the number of iterations since every iteration consumes a
nonempty chunk. -/
def streamLoop (fuel : Nat) (content : List Nat)
    (chunkSize okWrites bytesSent : Nat) : Nat :=
  match fuel with
  | 0 => bytesSent
  | fuel + 1 =>
    let chunk := content.take chunkSize
    if chunk.isEmpty then bytesSent
    else if okWrites = 0 then bytesSent
    else streamLoop fuel (content.drop chunkSize) chunkSize (okWrites - 1)
           (bytesSent + chunk.length)

/-- Bytes recorded by the download chunk loop when the sink accepts
`okWrites` chunk writes before reporting a broken pipe. -/
def stream (content : List Nat) (okWrites : Nat) : Nat :=
  streamLoop (content.length + 1) content (64 * 1024) okWrites 0

/-! ## generate_enhanced_directory_listing
(enhanced_http_server_complete.py, 644-719) -/

/-- Extension table `video_extensions` of the handler class. -/
def video_extensions : List String :=
  [".mp4", ".avi", ".mkv", ".mov", ".wmv", ".flv", ".webm", ".mpeg",
   ".mpg", ".m4v", ".3gp", ".ogv"]

/-- Extension table `image_extensions` of the handler class. -/
def image_extensions : List String :=
  [".png", ".jpg", ".jpeg", ".gif", ".bmp", ".svg", ".webp", ".ico"]

/-- One `file_info` record built by the listing loop. -/
structure ListEntry where
  name : String
  size : Nat
  modified : Nat
  is_directory : Bool
  is_video : Bool
  is_image : Bool
  permissions : Nat
  is_readable : Bool
  is_writable : Bool
deriving DecidableEq

/-- Build the `file_info` record for one directory entry.  `permissions`
models `oct(stat.st_mode)[-3:]` as the low nine mode bits. -/
def mkListEntry (e : String × FSNode) : ListEntry :=
  { name := e.1
    size := if e.2.isDir then 0 else e.2.sizeB
    modified := e.2.metaOf.mtime
    is_directory := e.2.isDir
    is_video := video_extensions.any (fun ext => strEndsWith (strLower e.1) ext)
    is_image := image_extensions.any (fun ext => strEndsWith (strLower e.1) ext)
    permissions := e.2.metaOf.mode % 512
    is_readable := e.2.metaOf.readable
    is_writable := e.2.metaOf.writable }

/-- Sort key comparison of line 698:
`files.sort(key=lambda x: (not x['is_directory'], x['name'].lower()))` —
ascending lexicographic on the pair (negated directory flag, lowercased
name), with `False < True`. -/
def listingLe (a b : ListEntry) : Bool :=
  if (!a.is_directory) = (!b.is_directory) then
    lexLe (strLower a.name).data (strLower b.name).data
  else !b.is_directory

/-- The sort relation as a `Prop`, for `List.insertionSort`. -/
def listingRel (a b : ListEntry) : Prop := listingLe a b = true

instance : DecidableRel listingRel :=
  fun a b => instDecidableEqBool (listingLe a b) true

/-- Python `list.sort` is a stable sort; any stable sort for the same total
preorder produces the same sequence, so the model uses insertion sort. -/
def sortListing (l : List ListEntry) : List ListEntry :=
  List.insertionSort listingRel l

/-- The `current_dir` computed from the request path: `.` for the root
request, else `os.path.join('.', request_path.strip('/'))` (or `.` when the
stripped path is empty). -/
def listingCurrentDir (request_path : String) : String :=
  if request_path = "/" then "."
  else
    let clean := stripSlashes request_path
    if clean = "" then "." else pyJoin "." clean

/-- Outcome of a directory-listing request.  `entries` is the sorted data
handed to the HTML renderer (empty on error responses); `cwdTrace` records
the successive values of the process-global working directory over the
handling of the request, starting value first (the handler `chdir`s into the
listed directory and `chdir`s back in a `finally`). -/
structure ListingOutcome where
  status : Nat
  entries : List ListEntry
  cwdTrace : List String
deriving DecidableEq

/-- `generate_enhanced_directory_listing`: boundary check
`abspath(current_dir).startswith(abspath('.'))` (403 on failure), existence
and directory checks (404), then `chdir` into the directory, list and sort
its children, respond 200, and `chdir` back. -/
def generate_enhanced_directory_listing (fs : FSNode) (cwd0 request_path : String) :
    ListingOutcome :=
  let current_dir := listingCurrentDir request_path
  let abs_current := pyAbspath cwd0 current_dir
  let abs_start := pyAbspath cwd0 "."
  if ¬ strStartsWith abs_current abs_start then
    ⟨403, [], [cwd0]⟩
  else if ¬ (pyExists fs abs_current ∧ pyIsDir fs abs_current) then
    ⟨404, [], [cwd0]⟩
  else
    let entries := sortListing ((childrenAt fs abs_current).map mkListEntry)
    ⟨200, entries, [cwd0, abs_current, cwd0]⟩

/-! ## send_video_info (enhanced_http_server_complete.py, 450-484) -/

/-- The JSON fields of the `/api/video/<name>` response that come from the
filesystem (`name`, `st_size`, `st_mtime`, `oct(st_mode)[-3:]` as the low
nine mode bits, `os.access` for read/write); the derived URL strings and the
timestamp rendering are presentation. -/
structure VideoInfo where
  name : String
  size : Nat
  modified : Nat
  permissions : Nat
  is_readable : Bool
  is_writable : Bool
deriving DecidableEq

/-- `send_video_info`: `video_path = os.path.join('.', video_name)` — an
absolute `video_name` replaces the `'.'` entirely — then 404 if the path
does not exist, else 200 with the stat metadata of whatever path that is
(no containment check against the served directory). -/
def send_video_info (fs : FSNode) (cwd video_name : String) :
    Nat × Option VideoInfo :=
  let video_path := pyJoin "." video_name
  let resolved := if strStartsWith video_path "/" then video_path
                  else pyJoin cwd video_path
  match lookupAbs fs resolved with
  | none => (404, none)
  | some node =>
    (200, some { name := video_name
                 size := node.sizeB
                 modified := node.metaOf.mtime
                 permissions := node.metaOf.mode % 512
                 is_readable := node.metaOf.readable
                 is_writable := node.metaOf.writable })

/-! ## Raw-file mode of do_GET (enhanced_http_server_complete.py, 83-92)

A path that matches no prefix route and does not end in `/` is handed to
`super().do_GET()`, i.e. to CPython's
`http.server.SimpleHTTPRequestHandler.do_GET`.  That superclass never reads
the `Range` request header: it translates the URL path against the working
directory (discarding `.` and `..` components), and for a regular file
always responds 200 with the whole file and a `Content-Length` equal to its
size — never 206/416, never a `Content-Range` header. -/

/-- Response of the stdlib raw-file branch. -/
structure RawResponse where
  status : Nat
  contentRange : Option String
  contentLength : Option Nat
  body : List Nat
deriving DecidableEq

/-- CPython `SimpleHTTPRequestHandler.translate_path` for an already
URL-decoded path with no query/fragment: `posixpath.normpath`, split on
`/`, drop empty, `.` and `..` words, then join each word onto the working
directory. -/
def translate_path (cwd urlPath : String) : String :=
  let words := (splitSlash (normpath urlPath)).filter
    (fun w => w ≠ "" ∧ w ≠ "." ∧ w ≠ "..")
  words.foldl pyJoin cwd

/-- Model of `SimpleHTTPRequestHandler.do_GET` (the delegation target of the
source's raw-file branch) for file and missing paths; the `rangeHeader`
parameter is the `Range` request header, which the stdlib handler never
consults.  A directory path without trailing slash gets a 301 redirect. -/
def simple_do_GET (fs : FSNode) (cwd urlPath : String)
    (rangeHeader : Option String) : RawResponse :=
  match rangeHeader, lookupAbs fs (translate_path cwd urlPath) with
  | _, some (.file content _) => ⟨200, none, some content.length, content⟩
  | _, some (.dir _ _) => ⟨301, none, none, []⟩
  | _, none => ⟨404, none, none, []⟩

/-! ## format_file_size (identical in both sources) -/

/-- Unit table `size_names` of `format_file_size`. -/
def size_names : List String := ["B", "KB", "MB", "GB", "TB"]

/-- The `while size >= 1024.0 and i < len(size_names) - 1` loop, returning
the final unit index `i`.  The float variable `size` always equals
`size_bytes / 1024^i`, so the loop guard `size >= 1024.0` is the exact
integer comparison `1024^(i+1) <= size_bytes` (Python's float is exact here
below 2^53; above, rounding could shift the guard marginally but never the
claim-relevant outputs).  The fuel equals the loop's own bound `i < 4`, so
the recursion is structural. -/
def fss_go : Nat → Nat → Nat → Nat
  | 0, _, i => i
  | fuel + 1, n, i =>
    if 1024 ^ (i + 1) ≤ n ∧ i < 4 then fss_go fuel n (i + 1) else i

/-- Rounding of `10 * n / d` to the nearest integer, ties to even — the
rounding CPython's `f"{size:.1f}"` applies to the exact quotient. -/
def roundHalfEven10 (n d : Nat) : Nat :=
  let q := 10 * n / d
  let r := 10 * n % d
  if 2 * r < d then q
  else if d < 2 * r then q + 1
  else if q % 2 = 0 then q else q + 1

/-- One-decimal rendering of `n / 1024^i`, the `f"{size:.1f}"` of the
source. -/
def oneDecimal (n i : Nat) : String :=
  let t := roundHalfEven10 n (1024 ^ i)
  toString (t / 10) ++ "." ++ toString (t % 10)

/-- `format_file_size`: `"0 B"` for zero; otherwise divide by 1024 at most
four times and render either `f"{int(size)} {unit}"` (no division happened,
so `int(size)` is `size_bytes` itself) or `f"{size:.1f} {unit}"`. -/
def format_file_size (size_bytes : Nat) : String :=
  if size_bytes = 0 then "0 B"
  else
    let i := fss_go 4 size_bytes 0
    if i = 0 then toString size_bytes ++ " " ++ size_names.getD 0 ""
    else oneDecimal size_bytes i ++ " " ++ size_names.getD i ""

/-! ## Categorised listing of enhanced_http_server_new.py (438-511) -/

/-- The `file_info` record of the second source's `list_directory`:
`modified` is the `strftime`-formatted modification time (the sort key of
line 492). -/
structure NewFileInfo where
  name : String
  size_bytes : Nat
  modified : String
  is_dir : Bool
deriving DecidableEq

/-- `get_file_category_and_extensions` of `enhanced_http_server_new.py`
(dict in insertion order). -/
def get_file_category_and_extensions : List (String × List String) :=
  [("Python Scripts", [".py", ".pyw", ".pyx"]),
   ("Shell Scripts", [".sh", ".bash", ".zsh", ".fish"]),
   ("Log Files", [".log", ".logs"]),
   ("CSV Data", [".csv"]),
   ("JSON Files", [".json", ".jsonl"]),
   ("HTML Files", [".html", ".htm"]),
   ("Documents", [".docx", ".doc", ".pdf", ".odt", ".rtf"]),
   ("Text Files", [".txt", ".md", ".readme"]),
   ("Spreadsheets", [".xlsx", ".xls", ".ods"]),
   ("Stylesheets", [".css", ".scss", ".sass", ".less"]),
   ("JavaScript", [".js", ".jsx", ".ts", ".tsx"]),
   ("Images", [".png", ".jpg", ".jpeg", ".gif", ".bmp", ".svg", ".webp", ".ico"]),
   ("Videos", [".mp4", ".avi", ".mkv", ".mov", ".wmv", ".flv", ".webm"]),
   ("Audio", [".mp3", ".wav", ".flac", ".ogg", ".m4a", ".wma"]),
   ("Archives", [".zip", ".tar", ".gz", ".bz2", ".xz", ".rar", ".7z"]),
   ("Configuration", [".conf", ".config", ".cfg", ".ini", ".yaml", ".yml", ".toml"]),
   ("Database", [".db", ".sqlite", ".sqlite3", ".sql"]),
   ("XML Files", [".xml", ".xsl", ".xsd"]),
   ("Binary", [".bin", ".exe", ".dll", ".so", ".deb", ".rpm"]),
   ("Certificates", [".pem", ".key", ".crt", ".cert", ".p12", ".pfx"]),
   ("Data Files", [".dat", ".data", ".dump"]),
   ("Templates", [".tpl", ".template", ".tmpl"]),
   ("Backup Files", [".bak", ".backup", ".old"]),
   ("Temporary Files", [".tmp", ".temp", ".cache"]),
   ("System Files", [".service", ".socket", ".timer"]),
   ("Other Files", [])]

/-- CPython `posixpath.splitext` extension part for a bare name (no
slashes): the suffix from the last dot, empty when every character before
that dot is itself a dot (so `.bashrc` has no extension). -/
def extOf (s : List Char) : List Char :=
  let pre := (s.reverse.dropWhile (· ≠ '.')).reverse
  if pre = [] then []
  else if (pre.dropLast).any (· ≠ '.') then s.drop (pre.length - 1)
  else []

/-- Category assignment of the `list_directory` loop: directories go to
`Directories`; otherwise the first table row whose extension list contains
`splitext(name.lower())[1]` wins, with `Other Files` as the fallback. -/
def categorize (name : String) (is_dir : Bool) : String :=
  if is_dir then "Directories"
  else
    match get_file_category_and_extensions.find?
        (fun ce => ce.2.contains (⟨extOf (strLower name).data⟩ : String)) with
    | some ce => ce.1
    | none => "Other Files"

/-- Sort relation of line 492:
`sort(key=lambda x: x['modified'], reverse=True)` — descending by the
formatted timestamp string.  Python's reverse sort is stable, matching
insertion sort for this relation. -/
def newModRel (a b : NewFileInfo) : Prop :=
  lexLe b.modified.data a.modified.data = true

instance : DecidableRel newModRel :=
  fun a b => instDecidableEqBool (lexLe b.modified.data a.modified.data) true

/-- Build the second source's `file_info` for one entry. -/
def mkNewFileInfo (e : String × FSNode) : NewFileInfo :=
  { name := e.1
    size_bytes := e.2.sizeB
    modified := e.2.metaOf.mtimeStr
    is_dir := e.2.isDir }

/-- The entries of one category of the second source's listing, in the
order the rendered page shows them: `listdir` order filtered to the
category, then sorted by formatted modification time, newest first. -/
def new_list_category (entries : List (String × FSNode)) (cat : String) :
    List NewFileInfo :=
  List.insertionSort newModRel
    ((entries.map mkNewFileInfo).filter (fun fi => categorize fi.name fi.is_dir = cat))

/-! ## General lemmas about the embedded operations -/

theorem lexLe_total : ∀ a b : List Char, lexLe a b = true ∨ lexLe b a = true := by
  intro a
  induction a with
  | nil => intro b; left; rfl
  | cons x xs ih =>
    intro b
    cases b with
    | nil => right; rfl
    | cons y ys =>
      by_cases h1 : x.toNat < y.toNat
      · left; simp [lexLe, h1]
      · by_cases h2 : y.toNat < x.toNat
        · right; simp [lexLe, h1, h2]
        · rcases ih ys with h | h
          · left; simp [lexLe, h1, h2, h]
          · right; simp [lexLe, h1, h2, h]

theorem lexLe_trans : ∀ a b c : List Char,
    lexLe a b = true → lexLe b c = true → lexLe a c = true := by
  intro a
  induction a with
  | nil => intro b c _ _; rfl
  | cons x xs ih =>
    intro b c hab hbc
    cases b with
    | nil => exact absurd hab (by simp [lexLe])
    | cons y ys =>
      cases c with
      | nil => exact absurd hbc (by simp [lexLe])
      | cons z zs =>
        simp only [lexLe] at hab hbc ⊢
        split_ifs at hab hbc ⊢ <;>
          first
          | rfl
          | omega
          | simp at hab
          | simp at hbc
          | exact ih ys zs hab hbc

theorem listingLe_total (a b : ListEntry) :
    listingLe a b = true ∨ listingLe b a = true := by
  cases ha : a.is_directory <;> cases hb : b.is_directory <;>
    simp [listingLe, ha, hb] <;>
    exact lexLe_total _ _

theorem listingLe_trans (a b c : ListEntry) (hab : listingLe a b = true)
    (hbc : listingLe b c = true) : listingLe a c = true := by
  cases ha : a.is_directory <;> cases hb : b.is_directory <;>
    cases hc : c.is_directory <;>
    simp [listingLe, ha, hb, hc] at hab hbc ⊢ <;>
    exact lexLe_trans _ _ _ hab hbc

instance : IsTotal ListEntry listingRel := ⟨listingLe_total⟩

instance : IsTrans ListEntry listingRel := ⟨listingLe_trans⟩

/-- What one comparison of the listing sort key guarantees, as a Boolean:
no file ever precedes a directory, and inside a flag-group the lowercased
names are in lexicographic order. -/
theorem listingLe_imp {a b : ListEntry} (h : listingRel a b) :
    ((!b.is_directory || a.is_directory) &&
     ((a.is_directory != b.is_directory) ||
       lexLe (strLower a.name).data (strLower b.name).data)) = true := by
  cases ha : a.is_directory <;> cases hb : b.is_directory <;>
    simp_all [listingRel, listingLe, ha, hb]

/-- The chunk loop records exactly the lengths of the fully transferred
chunks: with `okWrites` successful chunk writes it returns
`bytesSent + min (okWrites * chunkSize) content.length`, provided the fuel
covers the content. -/
theorem streamLoop_eq : ∀ (fuel : Nat) (content : List Nat)
    (cs k b : Nat), content.length ≤ fuel * cs →
    streamLoop fuel content cs k b = b + min (k * cs) content.length := by
  intro fuel
  induction fuel with
  | zero =>
    intro content cs k b h
    have hc : content.length = 0 := Nat.le_zero.mp (by simpa using h)
    simp [streamLoop, hc]
  | succ fuel ih =>
    intro content cs k b h
    rw [streamLoop]
    by_cases hemp : (content.take cs).isEmpty
    · have : content.take cs = [] := by simpa [List.isEmpty_iff] using hemp
      have hcs : cs = 0 ∨ content = [] := by
        rcases List.take_eq_nil_iff.mp this with h0 | h0
        · left; exact h0
        · right; exact h0
      rcases hcs with h0 | h0 <;> simp [hemp, h0]
    · simp only [hemp, if_false, Bool.false_eq_true]
      have hcs : ¬ cs = 0 := by
        intro h0; exact hemp (by simp [h0])
      have hcont : ¬ content = [] := by
        intro h0; exact hemp (by simp [h0])
      by_cases hk : k = 0
      · simp [hk]
      · simp only [hk, if_false]
        rw [ih (content.drop cs) cs (k - 1) (b + (content.take cs).length)
              (by
                have := List.length_drop cs content
                have hle : content.length ≤ (fuel + 1) * cs := h
                have : (content.drop cs).length = content.length - cs := by
                  simp [List.length_drop]
                rw [this]
                have : (fuel + 1) * cs = fuel * cs + cs := by ring
                omega)]
        have h1 : (content.take cs).length = min cs content.length := by
          simp [List.length_take]
        have h2 : (content.drop cs).length = content.length - cs := by
          simp [List.length_drop]
        rw [h1, h2]
        have hk1 : k * cs = (k - 1) * cs + cs := by
          have : k = (k - 1) + 1 := by omega
          calc k * cs = ((k - 1) + 1) * cs := by rw [← this]
          _ = (k - 1) * cs + cs := by ring
        rw [hk1]
        have hlen : 0 < content.length := by
          cases content with
          | nil => exact absurd rfl hcont
          | cons _ _ => simp
        omega

/-- The unit-index loop never runs past the end of the unit table. -/
theorem fss_go_le : ∀ (fuel n i : Nat), fss_go fuel n i ≤ i + fuel := by
  intro fuel
  induction fuel with
  | zero => intro n i; simp [fss_go]
  | succ fuel ih =>
    intro n i
    rw [fss_go]
    split
    · have := ih n (i + 1)
      omega
    · omega

/-- When no division happens the input was below 1024. -/
theorem fss_go_zero_of_lt (n : Nat) (h : n < 1024) : fss_go 4 n 0 = 0 := by
  rw [fss_go, if_neg]
  intro hc
  have h1 : (1024 : Nat) ^ (0 + 1) = 1024 := by norm_num
  rw [h1] at hc
  omega

/-- `format_file_size` always renders a number, a space and one entry of the
unit table. -/
theorem format_structure (n : Nat) :
    ∃ pre : String, ∃ i : Fin 5,
      format_file_size n = pre ++ " " ++ size_names.get i := by
  by_cases h0 : n = 0
  · exact ⟨"0", ⟨0, by omega⟩, by simp [format_file_size, h0]; rfl⟩
  · have h4 : fss_go 4 n 0 ≤ 4 := by simpa using fss_go_le 4 n 0
    rw [format_file_size, if_neg h0]
    set j := fss_go 4 n 0 with hj
    interval_cases j
    · exact ⟨toString n, ⟨0, by omega⟩, by rfl⟩
    · exact ⟨oneDecimal n 1, ⟨1, by omega⟩, by rfl⟩
    · exact ⟨oneDecimal n 2, ⟨2, by omega⟩, by rfl⟩
    · exact ⟨oneDecimal n 3, ⟨3, by omega⟩, by rfl⟩
    · exact ⟨oneDecimal n 4, ⟨4, by omega⟩, by rfl⟩

/-! ## Concrete filesystems used as witnesses and counterexamples

`demoFS` is a host filesystem whose served root is `/srv/root` (the
process working directory after the startup `os.chdir`), containing the
10-byte file `a.txt` and the subdirectory `sub` with `b.txt`; outside the
served root it has `/etc/passwd` with content "root" (bytes 114 111 111
116).  Mode 420 is `0o644`. -/

def metaA : Meta := ⟨100, "2024-01-01 00:00:00", 420, true, false⟩

def metaB : Meta := ⟨200, "2024-01-02 00:00:00", 420, true, true⟩

def demoSub : FSNode := .dir (.cons "b.txt" (.file [66] metaB) .nil) metaB

def demoRoot : FSNode :=
  .dir (.cons "a.txt" (.file [1, 2, 3, 4, 5, 6, 7, 8, 9, 10] metaA)
        (.cons "sub" demoSub .nil)) metaA

def demoFS : FSNode :=
  .dir (.cons "srv" (.dir (.cons "root" demoRoot .nil) metaA)
        (.cons "etc" (.dir (.cons "passwd" (.file [114, 111, 111, 116] metaA) .nil)
          metaA) .nil)) metaA

/-- Filesystem for the find-by-name scenario: `report.csv` sits two
directories below the served root `/srv/root`, and no other `report.csv`
exists anywhere. -/
def findD2 : FSNode := .dir (.cons "report.csv" (.file [82, 67] metaA) .nil) metaA

def findD1 : FSNode := .dir (.cons "d2" findD2 .nil) metaA

def findRoot : FSNode :=
  .dir (.cons "d1" findD1 (.cons "other.txt" (.file [120] metaA) .nil)) metaA

def findFS : FSNode :=
  .dir (.cons "srv" (.dir (.cons "root" findRoot .nil) metaA) .nil) metaA

/-- Directory entries (in `os.listdir` order) for the second source's
categorised listing: two text files whose formatted modification times are
in the opposite order of their names. -/
def demoNewEntries : List (String × FSNode) :=
  [("a.txt", .file [97] metaA), ("b.txt", .file [98] metaB)]

/-! ## Claim C1 -/

/-- C1, counterexample: the claim that every filesystem path whose content
is returned is a descendant of ServedRoot (or the response is 403) is false
for the download handler's direct-path branch.  With the served root (and
working directory) `/srv/root`, the request `GET /download//etc/passwd`
(decoded path after the prefix: `/etc/passwd`) is answered 200 and streams
the content of `/etc/passwd`, a path of which the served root is not a
prefix; no check compares the path against the served root. -/
theorem C1_counterexample :
    (handle_dedicated_download demoFS "/srv/root" "/etc/passwd").status = 200 ∧
    (handle_dedicated_download demoFS "/srv/root" "/etc/passwd").body =
      [114, 111, 111, 116] ∧
    strStartsWith "/etc/passwd" "/srv/root" = false ∧
    pyIsFile demoFS "/etc/passwd" = true := by
  refine ⟨rfl, rfl, rfl, rfl⟩

/-- C1, amended: the prefix containment check exists only in the
directory-listing handler — whenever `abspath(current_dir)` does not have
`abspath('.')` as a string prefix the listing responds 403 — while the
download handler's direct-path branch serves any existing absolute
regular-file path with status 200 and its full content, with no ServedRoot
containment check at all (the working directory argument is arbitrary). -/
theorem C1_amended :
    (∀ (fs : FSNode) (cwd0 req : String),
      strStartsWith (pyAbspath cwd0 (listingCurrentDir req)) (pyAbspath cwd0 ".") =
        false →
      (generate_enhanced_directory_listing fs cwd0 req).status = 403) ∧
    (∀ (fs : FSNode) (cwd name : String) (content : List Nat) (meta : Meta),
      strStartsWith name "/" = true →
      lookupAbs fs (normpath name) = some (.file content meta) →
      (handle_dedicated_download fs cwd name).status = 200 ∧
      (handle_dedicated_download fs cwd name).body = content) := by
  constructor
  · intro fs cwd0 req h
    unfold generate_enhanced_directory_listing
    simp [h]
  · intro fs cwd name content meta h1 h2
    unfold handle_dedicated_download download_branch
    simp [h1, h2]

/-- C1, witness for the amended statement: a request that escapes the root
through `..` is refused 403 by the listing handler, and the absolute-path
download of `/etc/passwd` succeeds from a served root that is not a prefix
of it. -/
theorem C1_witness :
    (generate_enhanced_directory_listing demoFS "/srv/root" "/../").status = 403 ∧
    (handle_dedicated_download demoFS "/srv/root" "/etc/passwd").status = 200 ∧
    (handle_dedicated_download demoFS "/srv/root" "/etc/passwd").body =
      [114, 111, 111, 116] :=
  ⟨C1_amended.1 demoFS "/srv/root" "/../" rfl,
   (C1_amended.2 demoFS "/srv/root" "/etc/passwd" [114, 111, 111, 116] metaA
      rfl rfl).1,
   (C1_amended.2 demoFS "/srv/root" "/etc/passwd" [114, 111, 111, 116] metaA
      rfl rfl).2⟩

/-! ## Claim C2 -/

/-- C2, counterexample: the raw-file branch of `do_GET` delegates to
CPython's `SimpleHTTPRequestHandler`, which never reads the `Range` header.
For the existing 10-byte regular file `/srv/root/a.txt`, a GET for
`/a.txt` carrying `Range: bytes=0-` is answered with status 200 (not 206),
the full body, and no `Content-Range` header. -/
theorem C2_counterexample :
    simple_do_GET demoFS "/srv/root" "/a.txt" (some "bytes=0-") =
      ⟨200, none, some 10, [1, 2, 3, 4, 5, 6, 7, 8, 9, 10]⟩ ∧
    ((simple_do_GET demoFS "/srv/root" "/a.txt" (some "bytes=0-")).status == 206) =
      false := by
  refine ⟨rfl, rfl⟩

/-- C2, amended: for every existing regular file served in raw-file mode, a
GET request carrying `Range: bytes=0-` returns the entire file body with
status 200, `Content-Length` equal to the file size, and no `Content-Range`
header — the `Range` header is ignored, so no partial-content (206)
semantics apply. -/
theorem C2_amended (fs : FSNode) (cwd urlPath : String) (content : List Nat)
    (meta : Meta)
    (h : lookupAbs fs (translate_path cwd urlPath) = some (.file content meta)) :
    simple_do_GET fs cwd urlPath (some "bytes=0-") =
      ⟨200, none, some content.length, content⟩ := by
  unfold simple_do_GET
  rw [h]

/-- C2, witness: the amended statement applied to `/srv/root/a.txt`. -/
theorem C2_witness :
    simple_do_GET demoFS "/srv/root" "/a.txt" (some "bytes=0-") =
      ⟨200, none, some ([1, 2, 3, 4, 5, 6, 7, 8, 9, 10] : List Nat).length,
       [1, 2, 3, 4, 5, 6, 7, 8, 9, 10]⟩ :=
  C2_amended demoFS "/srv/root" "/a.txt" [1, 2, 3, 4, 5, 6, 7, 8, 9, 10] metaA rfl

/-! ## Claim C3 -/

/-- C3, counterexample: a `Range` whose start offset equals the file size
(10 for `/srv/root/a.txt`) does not produce 416 with
`Content-Range: bytes */10`: the stdlib branch the source delegates to
ignores the header and answers 200 with the whole file. -/
theorem C3_counterexample :
    simple_do_GET demoFS "/srv/root" "/a.txt" (some "bytes=10-20") =
      ⟨200, none, some 10, [1, 2, 3, 4, 5, 6, 7, 8, 9, 10]⟩ ∧
    ((simple_do_GET demoFS "/srv/root" "/a.txt" (some "bytes=10-20")).status == 416) =
      false := by
  refine ⟨rfl, rfl⟩

/-- C3, amended: for every existing regular file of size S in raw-file
mode, a GET whose Range header starts at S (`bytes=S-(S+10)`) is answered
200 with the entire body and no `Content-Range` header — never 416, since
the `Range` header is ignored by the delegated stdlib handler. -/
theorem C3_amended (fs : FSNode) (cwd urlPath : String) (content : List Nat)
    (meta : Meta)
    (h : lookupAbs fs (translate_path cwd urlPath) = some (.file content meta)) :
    simple_do_GET fs cwd urlPath
        (some ("bytes=" ++ toString content.length ++ "-" ++
          toString (content.length + 10))) =
      ⟨200, none, some content.length, content⟩ := by
  unfold simple_do_GET
  rw [h]

/-- C3, witness: the amended statement applied to `/srv/root/a.txt`. -/
theorem C3_witness :
    simple_do_GET demoFS "/srv/root" "/a.txt"
        (some ("bytes=" ++ toString ([1, 2, 3, 4, 5, 6, 7, 8, 9, 10] : List Nat).length
          ++ "-" ++ toString (([1, 2, 3, 4, 5, 6, 7, 8, 9, 10] : List Nat).length + 10))) =
      ⟨200, none, some ([1, 2, 3, 4, 5, 6, 7, 8, 9, 10] : List Nat).length,
       [1, 2, 3, 4, 5, 6, 7, 8, 9, 10]⟩ :=
  C3_amended demoFS "/srv/root" "/a.txt" [1, 2, 3, 4, 5, 6, 7, 8, 9, 10] metaA rfl

/-! ## Claim C4 -/

/-- C4, counterexample: serving the subdirectory listing `/sub/` of the
served root `/srv/root` does mutate the process-global working directory
mid-request: the trace of working-directory values is
`[/srv/root, /srv/root/sub, /srv/root]` (the handler `os.chdir`s into the
listed directory before reading it), so not every step equals the starting
value. -/
theorem C4_counterexample :
    (generate_enhanced_directory_listing demoFS "/srv/root" "/sub/").status = 200 ∧
    (generate_enhanced_directory_listing demoFS "/srv/root" "/sub/").cwdTrace =
      ["/srv/root", "/srv/root/sub", "/srv/root"] ∧
    ((generate_enhanced_directory_listing demoFS "/srv/root" "/sub/").cwdTrace.all
      (fun c => c = "/srv/root")) = false := by
  refine ⟨rfl, rfl, rfl⟩

/-- C4, amended: the listing handler temporarily `chdir`s the whole process
into the listed directory, but always restores the starting working
directory before returning (the restore sits in a `finally`): the trace of
working-directory values begins and ends with the starting value for every
filesystem, starting directory and request path. -/
theorem C4_amended (fs : FSNode) (cwd0 req : String) :
    (generate_enhanced_directory_listing fs cwd0 req).cwdTrace.head? =
      some cwd0 ∧
    (generate_enhanced_directory_listing fs cwd0 req).cwdTrace.getLast? =
      some cwd0 := by
  unfold generate_enhanced_directory_listing
  by_cases h1 : strStartsWith (pyAbspath cwd0 (listingCurrentDir req))
      (pyAbspath cwd0 ".") = true
  · by_cases h2 : pyExists fs (pyAbspath cwd0 (listingCurrentDir req)) = true ∧
        pyIsDir fs (pyAbspath cwd0 (listingCurrentDir req)) = true
    · simp [h1, h2]
    · simp [h1, h2]
  · simp [h1]

/-! ## Claim C5 -/

/-- C5: the find-by-name lookup tries the served directory directly first
(the `os.path.exists` check of the joined path), then the recursive walk of
the served subtree (first match in pre-order wins), and only if both fail
falls through to the depth-bounded walk of the parent tree. -/
theorem C5_find_order :
    (∀ (fs : FSNode) (cwd filename : String),
      pyExists fs (pyJoin cwd filename) = true →
      find_file_by_name fs cwd filename = some (pyJoin cwd filename)) ∧
    (∀ (fs : FSNode) (cwd filename p : String),
      pyExists fs (pyJoin cwd filename) = false →
      find_subtree fs cwd filename = some p →
      find_file_by_name fs cwd filename = some p) ∧
    (∀ (fs : FSNode) (cwd filename : String),
      pyExists fs (pyJoin cwd filename) = false →
      find_subtree fs cwd filename = none →
      find_file_by_name fs cwd filename = find_parent fs cwd filename) := by
  refine ⟨?_, ?_, ?_⟩
  · intro fs cwd filename h
    unfold find_file_by_name
    simp [h]
  · intro fs cwd filename p h1 h2
    unfold find_file_by_name
    simp [h1, h2]
  · intro fs cwd filename h1 h2
    unfold find_file_by_name
    simp [h1, h2]

/-- C5, witness: `report.csv` nested two directories below the served root
`/srv/root` (and nowhere else) is not found by the direct check, is the
first subtree match, and so `/download/report.csv` resolves to it. -/
theorem C5_witness :
    pyExists findFS (pyJoin "/srv/root" "report.csv") = false ∧
    find_subtree findFS "/srv/root" "report.csv" =
      some "/srv/root/d1/d2/report.csv" ∧
    find_file_by_name findFS "/srv/root" "report.csv" =
      some "/srv/root/d1/d2/report.csv" :=
  ⟨rfl, rfl,
   C5_find_order.2.1 findFS "/srv/root" "report.csv" "/srv/root/d1/d2/report.csv"
     rfl rfl⟩

/-! ## Claim C6 -/

/-- C6: the download stream loop is total (no exception escapes: a broken
pipe merely breaks the loop) and, when the peer accepts exactly `okWrites`
64 KiB chunk writes before disconnecting, the recorded byte count is
exactly the length of the fully transferred chunks — never more than the
file size. -/
theorem C6_stream_disconnect (content : List Nat) (okWrites : Nat) :
    stream content okWrites = min (okWrites * (64 * 1024)) content.length ∧
    stream content okWrites ≤ content.length := by
  have hb : content.length ≤ (content.length + 1) * (64 * 1024) := by
    calc content.length ≤ content.length + 1 := Nat.le_succ _
    _ = (content.length + 1) * 1 := (Nat.mul_one _).symm
    _ ≤ (content.length + 1) * (64 * 1024) := Nat.mul_le_mul_left _ (by norm_num)
  have h := streamLoop_eq (content.length + 1) content (64 * 1024) okWrites 0 hb
  have hs : stream content okWrites = min (okWrites * (64 * 1024)) content.length := by
    simpa [stream] using h
  exact ⟨hs, hs ▸ Nat.min_le_right _ _⟩

/-! ## Claim C7 -/

/-- C7: the dedicated download handler answers 200 with
`Content-Disposition: attachment`, `Content-Length` equal to the file size
and the full file bytes whenever resolution (direct path or find-by-name)
lands on an existing regular file; 404 when find-by-name finds nothing or
the resolved path does not exist; 400 when the resolved path exists but is
a directory. -/
theorem C7_download_contract :
    (∀ (fs : FSNode) (cwd name fp display : String) (content : List Nat)
        (meta : Meta),
      download_branch fs cwd name = some (fp, display) →
      lookupAbs fs (normpath fp) = some (.file content meta) →
      handle_dedicated_download fs cwd name =
        ⟨200, some ("attachment; filename=\"" ++ display ++ "\""),
         some content.length, some "bytes", content⟩) ∧
    (∀ (fs : FSNode) (cwd name : String),
      download_branch fs cwd name = none →
      handle_dedicated_download fs cwd name = ⟨404, none, none, none, []⟩) ∧
    (∀ (fs : FSNode) (cwd name fp display : String),
      download_branch fs cwd name = some (fp, display) →
      lookupAbs fs (normpath fp) = none →
      handle_dedicated_download fs cwd name = ⟨404, none, none, none, []⟩) ∧
    (∀ (fs : FSNode) (cwd name fp display : String) (es : FSEntries)
        (meta : Meta),
      download_branch fs cwd name = some (fp, display) →
      lookupAbs fs (normpath fp) = some (.dir es meta) →
      handle_dedicated_download fs cwd name = ⟨400, none, none, none, []⟩) := by
  refine ⟨?_, ?_, ?_, ?_⟩
  · intro fs cwd name fp display content meta h1 h2
    unfold handle_dedicated_download
    simp [h1, h2]
  · intro fs cwd name h1
    unfold handle_dedicated_download
    simp [h1]
  · intro fs cwd name fp display h1 h2
    unfold handle_dedicated_download
    simp [h1, h2]
  · intro fs cwd name fp display es meta h1 h2
    unfold handle_dedicated_download
    simp [h1, h2]

/-- C7, witness: find-by-name download of the nested `b.txt` streams its
single byte with the attachment headers; an unknown name is 404; the name
`sub`, which resolves to a directory, is 400. -/
theorem C7_witness :
    handle_dedicated_download demoFS "/srv/root" "b.txt" =
      ⟨200, some "attachment; filename=\"b.txt\"", some 1, some "bytes", [66]⟩ ∧
    handle_dedicated_download demoFS "/srv/root" "zzz.bin" =
      ⟨404, none, none, none, []⟩ ∧
    handle_dedicated_download demoFS "/srv/root" "sub" =
      ⟨400, none, none, none, []⟩ :=
  ⟨C7_download_contract.1 demoFS "/srv/root" "b.txt" "/srv/root/sub/b.txt"
     "b.txt" [66] metaB rfl rfl,
   C7_download_contract.2.1 demoFS "/srv/root" "zzz.bin" rfl,
   C7_download_contract.2.2.2 demoFS "/srv/root" "sub" "/srv/root/sub" "sub"
     (.cons "b.txt" (.file [66] metaB) .nil) metaB rfl rfl⟩

/-! ## Claim C8 -/

/-- C8, counterexample: the second source's `list_directory` sorts the
entries of each category by formatted modification time, newest first — not
case-insensitively by name.  For a directory holding `a.txt` (modified
2024-01-01) and `b.txt` (modified 2024-01-02), the rendered `Text Files`
entries come out `[b.txt, a.txt]`, although `b.txt` does not sort at or
before `a.txt` by lowercased name. -/
theorem C8_counterexample :
    (new_list_category demoNewEntries "Text Files").map (fun fi => fi.name) =
      ["b.txt", "a.txt"] ∧
    lexLe (strLower "b.txt").data (strLower "a.txt").data = false := by
  refine ⟨rfl, rfl⟩

/-- C8, amended: the listing of `enhanced_http_server_complete.py` does
satisfy the ordering policy — in every sorted listing no file precedes a
directory and, within a flag-group, lowercased names appear in
lexicographic order — and the concrete scenario holds there: a directory
with subdirectory `sub` and 10-byte file `a.txt` lists `sub` first, then
`a.txt` with size 10.  The categorised listing of
`enhanced_http_server_new.py` instead orders each category by modification
time, newest first. -/
theorem C8_amended (l : List ListEntry) :
    (sortListing l).Pairwise (fun a b =>
      ((!b.is_directory || a.is_directory) &&
       ((a.is_directory != b.is_directory) ||
         lexLe (strLower a.name).data (strLower b.name).data)) = true) ∧
    (generate_enhanced_directory_listing demoFS "/srv/root" "/").entries.map
        (fun e => (e.name, e.size, e.is_directory)) =
      [("sub", 0, true), ("a.txt", 10, false)] := by
  constructor
  · exact List.Pairwise.imp (fun hab => listingLe_imp hab)
      (List.sorted_insertionSort listingRel l)
  · rfl

/-! ## Claim C9 -/

/-- C9: for `/api/video/<name>` with an absolute decoded name,
`os.path.join('.', name)` returns the absolute name unchanged, and if that
path exists the handler answers 200 with its stat metadata — the working
directory (served root) plays no role, so any existing filesystem path is
disclosed. -/
theorem C9_video_info (fs : FSNode) (cwd name : String) (node : FSNode)
    (h : strStartsWith name "/" = true) :
    pyJoin "." name = name ∧
    (lookupAbs fs name = some node →
      send_video_info fs cwd name =
        (200, some ⟨name, node.sizeB, node.metaOf.mtime, node.metaOf.mode % 512,
                    node.metaOf.readable, node.metaOf.writable⟩)) := by
  have hj : pyJoin "." name = name := by
    unfold pyJoin
    rw [if_pos h]
  refine ⟨hj, ?_⟩
  intro h2
  unfold send_video_info
  simp [hj, h, h2]

/-- C9, witness: the metadata of `/etc/passwd` — outside the served root
`/srv/root` — is disclosed with status 200. -/
theorem C9_witness :
    send_video_info demoFS "/srv/root" "/etc/passwd" =
      (200, some ⟨"/etc/passwd", 4, 100, 420 % 512, true, false⟩) ∧
    strStartsWith "/etc/passwd" "/srv/root" = false :=
  ⟨(C9_video_info demoFS "/srv/root" "/etc/passwd"
      (.file [114, 111, 111, 116] metaA) rfl).2 rfl, rfl⟩

/-! ## Claim C10 -/

/-- C10: `format_file_size` terminates — its loop index is bounded by the
unit table (`fss_go 4 n 0 ≤ 4`, the fuel being the loop's own `i < 4`
bound) — and always renders a number followed by one unit of the table;
input 0 gives `"0 B"` and every positive value below 1024 is rendered as
the integer byte count. -/
theorem C10_format_size (n : Nat) :
    (∃ i : Fin 5, (" " ++ size_names.get i).data <:+ (format_file_size n).data) ∧
    fss_go 4 n 0 ≤ 4 ∧
    (n = 0 → format_file_size n = "0 B") ∧
    (0 < n → n < 1024 → format_file_size n = toString n ++ " " ++ "B") := by
  refine ⟨?_, by simpa using fss_go_le 4 n 0, ?_, ?_⟩
  · obtain ⟨pre, i, hpre⟩ := format_structure n
    refine ⟨i, ?_⟩
    rw [hpre]
    simp only [String.data_append, List.append_assoc]
    exact List.suffix_append _ _
  · intro h
    simp [format_file_size, h]
  · intro h1 h2
    have hz : fss_go 4 n 0 = 0 := fss_go_zero_of_lt n h2
    unfold format_file_size
    rw [if_neg (by omega)]
    simp [hz]
    rfl

/-- C10, witness: 500 bytes render as `"500 B"`. -/
theorem C10_witness :
    0 < 500 ∧ 500 < 1024 ∧ format_file_size 500 = toString 500 ++ " " ++ "B" :=
  ⟨by decide, by decide, (C10_format_size 500).2.2.2 (by decide) (by decide)⟩

end FileServer
